import Mathlib

/-
  Verification development for the `multiqueue` crate's core file
  `src/multiqueue.rs`: a bounded multi-producer multi-consumer broadcast
  queue over a circular buffer with per-slot wrap-generation tags.

  The embedding is sequential: each queue operation is a function from the
  queue state (plus handle data) to a result and a new state.  Compare-and-
  swap loops, which can only retry under concurrent interference, run their
  single uncontended iteration.  Counted-index words are unbounded natural
  counters: the ring position of a word `w` is `w % capacity` and the word
  itself serves as the wrap-valid tag (one tag value per lap and position).
  The `expect` panic in `reload_tail_single` is modelled by `Option`.
-/

namespace Multiqueue

/-- The writer handle's fast-path state cell (`enum QueueState`). -/
inductive QueueState where
| Single : QueueState
| Multi : QueueState
deriving DecidableEq, Repr

/-- One slot of the ring buffer (`struct QueueEntry<T>`).  The `wraps`
publication tag is `some w` once a producer whose head word was `w` has
published the slot; `none` models the `INITIAL_QUEUE_FLAG` sentinel, which
is distinct from every producer tag. -/
structure QueueEntry (T : Type) where
  val : T
  wraps : Option Nat
deriving DecidableEq, Repr

/-- Modelled from the spec: `Reader` lives in `read_cursor.rs`, which is not
under `src/`.  One broadcast group: its counted-index word `pos` and its
live consumer-handle count `consumers`. -/
structure Reader where
  pos : Nat
  consumers : Nat
deriving DecidableEq, Repr

/-- Modelled from the spec: `LoadedSignal` lives in `atomicsignal.rs`, which
is not under `src/`.  A loaded snapshot of the manager's signal with an
epoch bit and a free bit. -/
structure LoadedSignal where
  epoch : Bool
  free : Bool
deriving DecidableEq, Repr

/-- Modelled from the spec: accessor `get_epoch` of the loaded signal. -/
def LoadedSignal.get_epoch (s : LoadedSignal) : Bool := s.epoch

/-- Modelled from the spec: accessor `start_free` of the loaded signal. -/
def LoadedSignal.start_free (s : LoadedSignal) : Bool := s.free

/-- Modelled from the spec: `has_action` is set when either bit is set. -/
def LoadedSignal.has_action (s : LoadedSignal) : Bool := s.epoch || s.free

/-- A call made by a handle into the memory manager; used to record which
of `update_token` / `start_free` an operation invoked. -/
inductive MgrAction where
| updateToken : Nat → MgrAction
| startFree : MgrAction
deriving DecidableEq, Repr

/-- Modelled from the spec: `MemoryManager` lives in `memory.rs`, which is
not under `src/`.  It hands out integer tokens, keeps the set of live
tokens, owns the signal, and records the calls made into it in `log`. -/
structure MemoryManager where
  signal : LoadedSignal
  next_token : Nat
  tokens : List Nat
  log : List MgrAction
deriving DecidableEq, Repr

/-- Modelled from the spec: a fresh manager with no outstanding tokens. -/
def MemoryManager.new : MemoryManager :=
  { signal := ⟨false, false⟩, next_token := 0, tokens := [], log := [] }

/-- Modelled from the spec: `get_token` hands out a fresh token. -/
def MemoryManager.get_token (m : MemoryManager) : Nat × MemoryManager :=
  (m.next_token,
   { m with next_token := m.next_token + 1, tokens := m.tokens ++ [m.next_token] })

/-- Modelled from the spec: `update_token` (epoch participation); recorded
in the call log. -/
def MemoryManager.update_token (m : MemoryManager) (tok : Nat) : MemoryManager :=
  { m with log := m.log ++ [MgrAction.updateToken tok] }

/-- Modelled from the spec: `start_free`; recorded in the call log. -/
def MemoryManager.start_free (m : MemoryManager) : MemoryManager :=
  { m with log := m.log ++ [MgrAction.startFree] }

/-- Modelled from the spec: `remove_token` releases a live token. -/
def MemoryManager.remove_token (m : MemoryManager) (tok : Nat) : MemoryManager :=
  { m with tokens := m.tokens.erase tok }

/-- Modelled from the spec: `get_valid_wrap` (in `countedindex.rs`, not
under `src/`) rounds the requested capacity up to a power of two. -/
def get_valid_wrap (n : Nat) : Nat :=
  if n ≤ 1 then 1 else 2 ^ (Nat.log2 (n - 1) + 1)

namespace CountedIndex

/-- Modelled from the spec: `transaction.get()` on a counted-index word
`w` yields the ring position `w % capacity` and the wrap-valid tag, which
identifies the `(position, lap)` pair; with unbounded counters the word
itself is that tag. -/
def get (capacity w : Nat) : Nat × Nat := (w % capacity, w)

/-- Modelled from the spec: `matches_previous` on a head transaction word
`w` recognises a cached tail word `x` lying exactly one lap (capacity
slots) behind the head, i.e. the queue is full. -/
def matches_previous (capacity w x : Nat) : Bool := x + capacity == w

/-- Modelled from the spec: `get_previous count diff` is the counted-index
word `diff` slots before `count` (wrap-aware subtraction). -/
def get_previous (count diff : Nat) : Nat := count - diff

end CountedIndex

namespace ReadCursor

/-- Modelled from the spec: `get_max_diff` in `read_cursor.rs` (not under
`src/`) scans every reader group and returns the maximum number of slots
any group lies behind the producer word `count`; it returns `none` when
some group's word is ahead of `count` (the write head got ran over by
consumers, or the producer's snapshot is stale). -/
def get_max_diff (readers : List Reader) (count : Nat) : Option Nat :=
  if readers.all (fun r => r.pos ≤ count) then
    some (readers.foldl (fun m r => max m (count - r.pos)) 0)
  else
    none

/-- Modelled from the spec: `remove_reader` unlinks a group from the
cursor's list (the node itself is retired via the memory manager). -/
def remove_reader (readers : List Reader) (i : Nat) : List Reader :=
  readers.eraseIdx i

end ReadCursor

/-- The shared queue state (`struct MultiQueue<T>`), with the cache-line
padding fields dropped and the reader cursor inlined as the list of live
reader groups.  A reader handle refers to its group by list index. -/
structure MultiQueue (T : Type) where
  head : Nat
  tail_cache : Nat
  writers : Nat
  readers : List Reader
  data : List (QueueEntry T)
  capacity : Nat
  manager : MemoryManager
deriving DecidableEq, Repr

/-- A producer handle (`struct MultiWriter<T>`); `queue` stands for the
`Arc` reference to the shared state. -/
structure MultiWriter (T : Type) where
  queue : MultiQueue T
  state : QueueState
  token : Nat

/-- A consumer handle (`struct MultiReader<T>`); `reader` is the index of
its group in `queue.readers`. -/
structure MultiReader (T : Type) where
  queue : MultiQueue T
  reader : Nat
  token : Nat

/-- A single-consumer handle (`struct SingleReader<T>`). -/
structure SingleReader (T : Type) where
  reader : MultiReader T

/-- `MultiQueue::new`: allocate `get_valid_wrap capacity` slots all tagged
with the initial sentinel, head at 0, `tail_cache` 0, `writers` 1, one
reader group at position 0, and a manager that has issued the writer's and
the reader's tokens.  `junk` stands for the uninitialized slot memory. -/
def MultiQueue.new (T : Type) (junk : T) (_capacity : Nat) :
    MultiWriter T × MultiReader T :=
  let capacity := get_valid_wrap _capacity
  let (wtok, m1) := MemoryManager.new.get_token
  let (rtok, m2) := m1.get_token
  let queue : MultiQueue T :=
    { head := 0
      tail_cache := 0
      writers := 1
      readers := [{ pos := 0, consumers := 1 }]
      data := List.replicate capacity { val := junk, wraps := none }
      capacity := capacity
      manager := m2 }
  ({ queue := queue, state := QueueState.Single, token := wtok },
   { queue := queue, reader := 0, token := rtok })

/-- `MultiQueue::reload_tail_multi`: recompute the slowest-group tail from
the cursor and CAS it into `tail_cache`; on `none` from the cursor, reload
`tail_cache` and return it. -/
def MultiQueue.reload_tail_multi (q : MultiQueue T) (tail_cache count : Nat) :
    Nat × MultiQueue T :=
  match ReadCursor.get_max_diff q.readers count with
  | some max_diff_from_head =>
    let current_tail := CountedIndex.get_previous count max_diff_from_head
    if tail_cache = current_tail then
      (current_tail, q)
    else if q.tail_cache = tail_cache then
      (current_tail, { q with tail_cache := current_tail })
    else
      (q.tail_cache, q)
  | none => (q.tail_cache, q)

/-- `MultiQueue::reload_tail_single`: recompute the slowest-group tail and
store it into `tail_cache`; `none` models the `expect` panic taken when
the cursor reports a consumer ahead of the write head. -/
def MultiQueue.reload_tail_single (q : MultiQueue T) (count : Nat) :
    Option (Nat × MultiQueue T) :=
  match ReadCursor.get_max_diff q.readers count with
  | some max_diff_from_head =>
    let current_tail := CountedIndex.get_previous count max_diff_from_head
    some (current_tail, { q with tail_cache := current_tail })
  | none => none

/-- `MultiQueue::push_multi` (uncontended iteration): if the cached tail
matches one lap behind the head, reload it; if the reloaded tail still
matches, fail with the value; otherwise commit the head advance, write the
value into the claimed slot, and publish the wrap-valid tag. -/
def MultiQueue.push_multi (q : MultiQueue T) (val : T) :
    Except T Unit × MultiQueue T :=
  let (chead, wrap_valid_tag) := CountedIndex.get q.capacity q.head
  let tail_cache := q.tail_cache
  if CountedIndex.matches_previous q.capacity q.head tail_cache then
    let (new_tail, q1) := q.reload_tail_multi tail_cache wrap_valid_tag
    if CountedIndex.matches_previous q.capacity q.head new_tail then
      (Except.error val, q1)
    else
      (Except.ok (),
       { q1 with
         head := q1.head + 1
         data := q1.data.set chead { val := val, wraps := some wrap_valid_tag } })
  else
    (Except.ok (),
     { q with
       head := q.head + 1
       data := q.data.set chead { val := val, wraps := some wrap_valid_tag } })

/-- `MultiQueue::push_single`: the single-producer fast path; `none`
models the panic propagated from `reload_tail_single`. -/
def MultiQueue.push_single (q : MultiQueue T) (val : T) :
    Option (Except T Unit × MultiQueue T) :=
  let (chead, wrap_valid_tag) := CountedIndex.get q.capacity q.head
  let tail_cache := q.tail_cache
  if CountedIndex.matches_previous q.capacity q.head tail_cache then
    match q.reload_tail_single wrap_valid_tag with
    | none => none
    | some (new_tail, q1) =>
      if CountedIndex.matches_previous q.capacity q.head new_tail then
        some (Except.error val, q1)
      else
        some (Except.ok (),
          { q1 with
            head := q1.head + 1
            data := q1.data.set chead { val := val, wraps := some wrap_valid_tag } })
  else
    some (Except.ok (),
      { q with
        head := q.head + 1
        data := q.data.set chead { val := val, wraps := some wrap_valid_tag } })

/-- `MultiQueue::pop` (uncontended iteration) for the group at index `i`:
return `none` and leave the group in place when the slot's tag differs
from the attempt's wrap-valid tag, else read the value and commit the
group's advance by one. -/
def MultiQueue.pop (q : MultiQueue T) (i : Nat) : Option T × MultiQueue T :=
  match q.readers.get? i with
  | none => (none, q)
  | some r =>
    let (ctail, wrap_valid_tag) := CountedIndex.get q.capacity r.pos
    match q.data.get? ctail with
    | none => (none, q)
    | some read_cell =>
      if read_cell.wraps = some wrap_valid_tag then
        (some read_cell.val,
         { q with readers := q.readers.set i { r with pos := r.pos + 1 } })
      else
        (none, q)

/-- `MultiQueue::pop_view` for the group at index `i`: when the slot is
published for this generation, apply `op` to the value in place, advance
the group unconditionally by one (`commit_direct`), and return the
operation's result; otherwise hand `op` back. -/
def MultiQueue.pop_view (q : MultiQueue T) (op : T → R) (i : Nat) :
    Except (T → R) R × MultiQueue T :=
  match q.readers.get? i with
  | none => (Except.error op, q)
  | some r =>
    let (ctail, wrap_valid_tag) := CountedIndex.get q.capacity r.pos
    match q.data.get? ctail with
    | none => (Except.error op, q)
    | some read_cell =>
      if read_cell.wraps = some wrap_valid_tag then
        (Except.ok (op read_cell.val),
         { q with readers := q.readers.set i { r with pos := r.pos + 1 } })
      else
        (Except.error op, q)

/-- `MultiWriter::handle_signals`: on the epoch bit call `update_token`,
else on the free bit call `start_free`. -/
def MultiWriter.handle_signals (w : MultiWriter T) (signal : LoadedSignal) :
    MemoryManager :=
  if signal.get_epoch then
    w.queue.manager.update_token w.token
  else if signal.start_free then
    w.queue.manager.start_free
  else
    w.queue.manager

/-- The signal poll at the top of `MultiWriter::push`: load the signal and
run `handle_signals` when it has a pending action. -/
def MultiWriter.examine_signals (w : MultiWriter T) : MultiQueue T :=
  let signal := w.queue.manager.signal
  if signal.has_action then
    { w.queue with manager := w.handle_signals signal }
  else
    w.queue

/-- `MultiWriter::push`: poll signals, then dispatch on the fast-path
state cell: `Single` goes to `push_single`; `Multi` with `writers == 1`
downgrades the cell to `Single` and goes to `push_single`; otherwise
`push_multi`. -/
def MultiWriter.push (w : MultiWriter T) (val : T) :
    Option (Except T Unit × MultiWriter T) :=
  let q := w.examine_signals
  match w.state with
  | QueueState.Single =>
    (q.push_single val).map (fun p => (p.1, { w with queue := p.2 }))
  | QueueState.Multi =>
    if q.writers = 1 then
      (q.push_single val).map
        (fun p => (p.1, { w with queue := p.2, state := QueueState.Single }))
    else
      let p := q.push_multi val
      some (p.1, { w with queue := p.2 })

/-- `Clone for MultiWriter`: set the original's state cell to `Multi`,
build the new handle in `Multi` with a fresh token, and increment
`writers`.  Returns (original after the clone, new handle). -/
def MultiWriter.clone (w : MultiWriter T) : MultiWriter T × MultiWriter T :=
  let (tok, mgr) := w.queue.manager.get_token
  let q := { w.queue with writers := w.queue.writers + 1, manager := mgr }
  ({ w with queue := q, state := QueueState.Multi },
   { queue := q, state := QueueState.Multi, token := tok })

/-- `Drop for MultiWriter`: decrement `writers` and release the token. -/
def MultiWriter.drop (w : MultiWriter T) : MultiQueue T :=
  { w.queue with
    writers := w.queue.writers - 1
    manager := w.queue.manager.remove_token w.token }

/-- `Reader::get_consumers` read through a `MultiReader` handle. -/
def MultiReader.get_consumers (m : MultiReader T) : Option Nat :=
  (m.queue.readers.get? m.reader).map Reader.consumers

/-- `MultiReader::handle_signals`: identical to the writer's version. -/
def MultiReader.handle_signals (m : MultiReader T) (signal : LoadedSignal) :
    MemoryManager :=
  if signal.get_epoch then
    m.queue.manager.update_token m.token
  else if signal.start_free then
    m.queue.manager.start_free
  else
    m.queue.manager

/-- `MultiReader::into_single`: a `SingleReader` over the same handle when
the group has exactly one consumer, else the original handle back. -/
def MultiReader.into_single (m : MultiReader T) :
    Except (MultiReader T) (SingleReader T) :=
  match m.queue.readers.get? m.reader with
  | some r =>
    if r.consumers = 1 then Except.ok { reader := m } else Except.error m
  | none => Except.error m

/-- `Drop for MultiReader`: `remove_consumer` returns the previous count;
when it was 1 the group is unlinked from the cursor and the token is
released. -/
def MultiReader.drop (m : MultiReader T) : MultiQueue T :=
  match m.queue.readers.get? m.reader with
  | none => m.queue
  | some r =>
    let q := { m.queue with
               readers := m.queue.readers.set m.reader { r with consumers := r.consumers - 1 } }
    if r.consumers = 1 then
      { q with
        readers := ReadCursor.remove_reader q.readers m.reader
        manager := q.manager.remove_token m.token }
    else
      q

/-- `MultiReader::unsubscribe`: report whether this handle was the last
consumer of its group, then run the handle's drop. -/
def MultiReader.unsubscribe (m : MultiReader T) : Bool × MultiQueue T :=
  (m.get_consumers = some 1, m.drop)

/-- `SingleReader::into_multi`: unwrap back to the inner `MultiReader`. -/
def SingleReader.into_multi (s : SingleReader T) : MultiReader T :=
  s.reader

/-- `SingleReader::pop_view`: poll signals, then run the queue-level
`pop_view` on the handle's group. -/
def SingleReader.pop_view (s : SingleReader T) (op : T → R) :
    Except (T → R) R × MultiQueue T :=
  let q :=
    let signal := s.reader.queue.manager.signal
    if signal.has_action then
      { s.reader.queue with manager := s.reader.handle_signals signal }
    else
      s.reader.queue
  q.pop_view op s.reader.reader

/- Concrete states used by the witnesses below. -/

/-- A manager state as produced by `MultiQueue.new`. -/
def mgrW : MemoryManager :=
  { signal := ⟨false, false⟩, next_token := 2, tokens := [0, 1], log := [] }

/-- A capacity-1 queue whose single slot holds `7`, published for
generation 0, with the sole reader group still at position 0: the queue is
full for the producer and nonempty for the reader. -/
def qFullW : MultiQueue Nat :=
  { head := 1, tail_cache := 0, writers := 1,
    readers := [{ pos := 0, consumers := 1 }],
    data := [{ val := 7, wraps := some 0 }],
    capacity := 1, manager := mgrW }

/-- A writer handle on `qFullW` in `Single` state. -/
def wSingleW : MultiWriter Nat :=
  { queue := qFullW, state := QueueState.Single, token := 0 }

/-- A writer handle on `qFullW` in `Multi` state while `writers = 1`. -/
def wMultiOneW : MultiWriter Nat :=
  { queue := qFullW, state := QueueState.Multi, token := 0 }

/-- A writer handle in `Multi` state on a queue with `writers = 2`. -/
def wMultiTwoW : MultiWriter Nat :=
  { queue := { qFullW with writers := 2 }, state := QueueState.Multi, token := 0 }

/-- A reader handle on `qFullW` over its sole group. -/
def mrW : MultiReader Nat :=
  { queue := qFullW, reader := 0, token := 1 }

/-- A reader handle whose group has two consumers. -/
def mrTwoW : MultiReader Nat :=
  { queue := { qFullW with readers := [{ pos := 0, consumers := 2 }] },
    reader := 0, token := 1 }

/- Helper lemmas. -/

/-- `reload_tail_single` touches only `tail_cache`. -/
theorem reload_tail_single_fields {T : Type} (q : MultiQueue T) (c nt : Nat)
    (q1 : MultiQueue T) (h : q.reload_tail_single c = some (nt, q1)) :
    q1.head = q.head ∧ q1.data = q.data ∧ q1.readers = q.readers := by
  unfold MultiQueue.reload_tail_single at h
  cases hm : ReadCursor.get_max_diff q.readers c with
  | none => rw [hm] at h; simp at h
  | some d =>
    rw [hm] at h
    simp only [Option.some.injEq, Prod.mk.injEq] at h
    obtain ⟨h1, h2⟩ := h
    subst h2
    exact ⟨rfl, rfl, rfl⟩

/-- `reload_tail_multi` touches only `tail_cache`. -/
theorem reload_tail_multi_fields {T : Type} (q : MultiQueue T) (tc c nt : Nat)
    (q1 : MultiQueue T) (h : q.reload_tail_multi tc c = (nt, q1)) :
    q1.head = q.head ∧ q1.data = q.data ∧ q1.readers = q.readers := by
  unfold MultiQueue.reload_tail_multi at h
  cases hm : ReadCursor.get_max_diff q.readers c with
  | none =>
    rw [hm] at h
    simp only [Prod.mk.injEq] at h
    obtain ⟨h1, h2⟩ := h
    subst h2
    exact ⟨rfl, rfl, rfl⟩
  | some d =>
    rw [hm] at h
    dsimp only at h
    split at h
    · injection h with h1 h2; subst h2; exact ⟨rfl, rfl, rfl⟩
    · split at h
      · injection h with h1 h2; subst h2; exact ⟨rfl, rfl, rfl⟩
      · injection h with h1 h2; subst h2; exact ⟨rfl, rfl, rfl⟩

/-- Polling signals changes only the manager. -/
theorem examine_signals_fields {T : Type} (w : MultiWriter T) :
    w.examine_signals.head = w.queue.head ∧
    w.examine_signals.writers = w.queue.writers ∧
    w.examine_signals.tail_cache = w.queue.tail_cache ∧
    w.examine_signals.data = w.queue.data := by
  cases hs : w.queue.manager.signal.has_action <;>
    simp [MultiWriter.examine_signals, hs]

/-- Erasing the index just overwritten erases the same as before. -/
theorem eraseIdx_set {α : Type} (l : List α) (i : Nat) (x : α) :
    (l.set i x).eraseIdx i = l.eraseIdx i := by
  induction l generalizing i with
  | nil => rfl
  | cons a l ih =>
    cases i with
    | zero => rfl
    | succ n => simpa [List.set, List.eraseIdx] using ih n

/-- Claim C1: when the queue is full at the attempted push — the head
transaction matches the cached tail and still matches the tail recomputed
by the reload — both `push_single` and `push_multi` return `Err` carrying
the exact value passed in, the head is not advanced, and no slot value or
wraps tag is written (only `tail_cache` may have been refreshed by the
reload). -/
theorem push_full_returns_err (T : Type) (q : MultiQueue T) (val : T) :
    (∀ nt q1,
      CountedIndex.matches_previous q.capacity q.head q.tail_cache = true →
      q.reload_tail_single q.head = some (nt, q1) →
      CountedIndex.matches_previous q.capacity q.head nt = true →
      q.push_single val = some (Except.error val, q1) ∧
        q1.head = q.head ∧ q1.data = q.data) ∧
    (∀ nt q1,
      CountedIndex.matches_previous q.capacity q.head q.tail_cache = true →
      q.reload_tail_multi q.tail_cache q.head = (nt, q1) →
      CountedIndex.matches_previous q.capacity q.head nt = true →
      q.push_multi val = (Except.error val, q1) ∧
        q1.head = q.head ∧ q1.data = q.data) := by
  constructor
  · intro nt q1 hcache hreload hfull
    have hf := reload_tail_single_fields q q.head nt q1 hreload
    refine ⟨?_, hf.1, hf.2.1⟩
    unfold MultiQueue.push_single
    simp only [CountedIndex.get, hcache, if_true, hreload, hfull]
  · intro nt q1 hcache hreload hfull
    have hf := reload_tail_multi_fields q q.tail_cache q.head nt q1 hreload
    refine ⟨?_, hf.1, hf.2.1⟩
    unfold MultiQueue.push_multi
    simp only [CountedIndex.get, hcache, if_true, hreload, hfull]

/-- Claim C1 witness: a full capacity-1 queue rejects both pushes and
hands back the value `5`. -/
theorem push_full_returns_err_witness :
    qFullW.push_single 5 = some (Except.error 5, { qFullW with tail_cache := 0 }) ∧
    qFullW.push_multi 5 = (Except.error 5, qFullW) := by
  have h := push_full_returns_err Nat qFullW 5
  exact ⟨(h.1 0 { qFullW with tail_cache := 0 } (by decide) (by decide) (by decide)).1,
         (h.2 0 qFullW (by decide) (by decide) (by decide)).1⟩

/-- Claim C2: `pop` returns `none` and leaves the reader group's index in
place when the slot's wraps tag differs from the attempt's wrap-valid tag,
and returns the slot's value while advancing the group's index by one when
the tags match. -/
theorem pop_tag_check (T : Type) (q : MultiQueue T) (i : Nat) (r : Reader)
    (cell : QueueEntry T)
    (hr : q.readers.get? i = some r)
    (hc : q.data.get? (r.pos % q.capacity) = some cell) :
    (cell.wraps ≠ some r.pos → q.pop i = (none, q)) ∧
    (cell.wraps = some r.pos →
      q.pop i = (some cell.val,
        { q with readers := q.readers.set i { r with pos := r.pos + 1 } })) := by
  constructor
  · intro hne
    unfold MultiQueue.pop
    simp only [hr, CountedIndex.get, hc]
    rw [if_neg hne]
  · intro hw
    unfold MultiQueue.pop
    simp only [hr, CountedIndex.get, hc, hw, if_true]

/-- Claim C2 witness: on the concrete published slot, `pop` returns `7`
and advances the sole group from position 0 to 1. -/
theorem pop_tag_check_witness :
    qFullW.pop 0 =
      (some 7, { qFullW with readers := [{ pos := 1, consumers := 1 }] }) := by
  have h := pop_tag_check Nat qFullW 0 { pos := 0, consumers := 1 }
    { val := 7, wraps := some 0 } rfl rfl
  exact h.2 rfl

/-- Claim C4: when the slot at the reader's position is published for its
generation, `pop_view` applies the caller-supplied operation to the slot's
value, advances the group's index unconditionally by one, and returns `Ok`
of the operation's result — for every operation `op`. -/
theorem pop_view_consumes (T R : Type) (op : T → R) (q : MultiQueue T)
    (i : Nat) (r : Reader) (cell : QueueEntry T)
    (hr : q.readers.get? i = some r)
    (hc : q.data.get? (r.pos % q.capacity) = some cell)
    (hw : cell.wraps = some r.pos) :
    q.pop_view op i = (Except.ok (op cell.val),
      { q with readers := q.readers.set i { r with pos := r.pos + 1 } }) := by
  unfold MultiQueue.pop_view
  simp only [hr, CountedIndex.get, hc, hw, if_true]

/-- Claim C4 witness: viewing the published `7` through `n + 1` yields
`Ok 8` and the group advances to position 1. -/
theorem pop_view_consumes_witness :
    qFullW.pop_view (fun n => n + 1) 0 =
      (Except.ok 8, { qFullW with readers := [{ pos := 1, consumers := 1 }] }) := by
  have h := pop_view_consumes Nat Nat (fun n => n + 1) qFullW 0
    { pos := 0, consumers := 1 } { val := 7, wraps := some 0 } rfl rfl rfl
  exact h

/-- Claim C6: `into_single` returns `Ok` of a `SingleReader` over the same
underlying handle exactly when the group has one consumer, and otherwise
returns `Err` carrying the original handle unmodified. -/
theorem into_single_iff_sole_consumer (T : Type) (m : MultiReader T)
    (r : Reader) (hr : m.queue.readers.get? m.reader = some r) :
    (r.consumers = 1 → m.into_single = Except.ok { reader := m }) ∧
    (r.consumers ≠ 1 → m.into_single = Except.error m) := by
  constructor
  · intro h1
    unfold MultiReader.into_single
    simp only [hr, h1, if_true]
  · intro h1
    unfold MultiReader.into_single
    simp only [hr]
    rw [if_neg h1]

/-- Claim C6 witness: a sole-consumer group converts, a two-consumer group
is rejected with the original handle. -/
theorem into_single_iff_sole_consumer_witness :
    mrW.into_single = Except.ok { reader := mrW } ∧
    mrTwoW.into_single = Except.error mrTwoW := by
  exact ⟨(into_single_iff_sole_consumer Nat mrW
            { pos := 0, consumers := 1 } rfl).1 rfl,
         (into_single_iff_sole_consumer Nat mrTwoW
            { pos := 0, consumers := 2 } rfl).2 (by decide)⟩

/-- Claim C8: under the invariant that no consumer is ahead of the write
head and the head leads the slowest group by at most `capacity`,
`get_max_diff` answers `some`, so `reload_tail_single` cannot take its
panic branch. -/
theorem reload_tail_single_no_panic (T : Type) (q : MultiQueue T)
    (hinv : ∀ r ∈ q.readers, r.pos ≤ q.head ∧ q.head - r.pos ≤ q.capacity) :
    ∃ nt q1, q.reload_tail_single q.head = some (nt, q1) := by
  have hall : q.readers.all (fun r => r.pos ≤ q.head) = true := by
    rw [List.all_eq_true]
    intro r hrmem
    exact decide_eq_true (hinv r hrmem).1
  unfold MultiQueue.reload_tail_single ReadCursor.get_max_diff
  rw [hall]
  exact ⟨_, _, rfl⟩

/-- Claim C8 witness: the invariant holds of the concrete full queue and
the reload indeed returns `some`. -/
theorem reload_tail_single_no_panic_witness :
    ∃ nt q1, qFullW.reload_tail_single qFullW.head = some (nt, q1) := by
  exact reload_tail_single_no_panic Nat qFullW (by decide)

/-- Claim C10: for a handle whose group has exactly one consumer,
`into_single` succeeds and `into_multi` of the result is the original
handle — the same queue reference, group reader and token. -/
theorem into_single_into_multi_roundtrip (T : Type) (m : MultiReader T)
    (r : Reader) (hr : m.queue.readers.get? m.reader = some r)
    (h1 : r.consumers = 1) :
    ∃ s : SingleReader T, m.into_single = Except.ok s ∧ s.into_multi = m := by
  refine ⟨{ reader := m }, ?_, rfl⟩
  unfold MultiReader.into_single
  simp only [hr, h1, if_true]

/-- Claim C10 witness: the round trip is the identity on the concrete
sole-consumer handle. -/
theorem into_single_into_multi_roundtrip_witness :
    ∃ s : SingleReader Nat, mrW.into_single = Except.ok s ∧ s.into_multi = mrW := by
  exact into_single_into_multi_roundtrip Nat mrW { pos := 0, consumers := 1 } rfl rfl

/-- Claim C3: `MultiWriter::push` dispatches on the fast-path cell: a
`Single` handle runs `push_single`; a `Multi` handle whose queue has
`writers = 1` downgrades its cell to `Single` and runs `push_single`; any
other `Multi` handle runs `push_multi`.  (All after the signal poll, which
touches only the manager.) -/
theorem multiWriter_push_dispatch (T : Type) (w : MultiWriter T) (val : T) :
    (w.state = QueueState.Single →
      w.push val = (w.examine_signals.push_single val).map
        (fun p => (p.1, { w with queue := p.2 }))) ∧
    (w.state = QueueState.Multi → w.queue.writers = 1 →
      w.push val = (w.examine_signals.push_single val).map
        (fun p => (p.1, { w with queue := p.2, state := QueueState.Single }))) ∧
    (w.state = QueueState.Multi → w.queue.writers ≠ 1 →
      w.push val = some ((w.examine_signals.push_multi val).1,
        { w with queue := (w.examine_signals.push_multi val).2 })) := by
  have hwr := (examine_signals_fields w).2.1
  refine ⟨?_, ?_, ?_⟩
  · intro hs
    unfold MultiWriter.push
    rw [hs]
  · intro hs h1
    unfold MultiWriter.push
    rw [hs]
    dsimp only
    rw [hwr, if_pos h1]
  · intro hs h1
    unfold MultiWriter.push
    rw [hs]
    dsimp only
    rw [hwr, if_neg h1]

/-- Claim C3 witness: the three dispatch branches on concrete handles over
the full capacity-1 queue. -/
theorem multiWriter_push_dispatch_witness :
    (wSingleW.push 5 = (wSingleW.examine_signals.push_single 5).map
      (fun p => (p.1, { wSingleW with queue := p.2 }))) ∧
    (wMultiOneW.push 5 = (wMultiOneW.examine_signals.push_single 5).map
      (fun p => (p.1, { wMultiOneW with queue := p.2, state := QueueState.Single }))) ∧
    (wMultiTwoW.push 5 = some ((wMultiTwoW.examine_signals.push_multi 5).1,
      { wMultiTwoW with queue := (wMultiTwoW.examine_signals.push_multi 5).2 })) := by
  exact ⟨(multiWriter_push_dispatch Nat wSingleW 5).1 rfl,
         (multiWriter_push_dispatch Nat wMultiOneW 5).2.1 rfl rfl,
         (multiWriter_push_dispatch Nat wMultiTwoW 5).2.2 rfl (by decide)⟩

/-- Claim C5: `unsubscribe` reports `true` exactly when the handle's group
had one consumer left, and in that case the handle's drop unlinks the
group from the cursor and releases the token to the manager. -/
theorem unsubscribe_last_consumer (T : Type) (m : MultiReader T) (r : Reader)
    (hr : m.queue.readers.get? m.reader = some r) :
    ((m.unsubscribe).1 = true ↔ r.consumers = 1) ∧
    (r.consumers = 1 →
      (m.unsubscribe).2.readers = m.queue.readers.eraseIdx m.reader ∧
      (m.unsubscribe).2.manager.tokens = m.queue.manager.tokens.erase m.token) := by
  constructor
  · show decide (m.get_consumers = some 1) = true ↔ r.consumers = 1
    have hr' : m.queue.readers[m.reader]? = some r := by
      rw [← List.get?_eq_getElem?]; exact hr
    simp [MultiReader.get_consumers, hr']
  · intro h1
    show (MultiReader.drop m).readers = _ ∧ (MultiReader.drop m).manager.tokens = _
    unfold MultiReader.drop
    rw [hr]
    dsimp only
    rw [if_pos h1]
    exact ⟨eraseIdx_set m.queue.readers m.reader _, rfl⟩

/-- Claim C5 witness: unsubscribing the sole consumer reports `true`,
empties the cursor and releases token 1. -/
theorem unsubscribe_last_consumer_witness :
    (mrW.unsubscribe.1 = true ↔ (1 : Nat) = 1) ∧
    mrW.unsubscribe.2.readers = [] ∧
    mrW.unsubscribe.2.manager.tokens = [0] := by
  have h := unsubscribe_last_consumer Nat mrW { pos := 0, consumers := 1 } rfl
  exact ⟨h.1, (h.2 rfl).1, (h.2 rfl).2⟩

/- System-level model of producer-handle lifetime, built from
`MultiQueue.new`, `MultiWriter.clone` and `MultiWriter.drop`, for the
`writers`-counter invariant.  A handle is represented by its state cell
and token; ops address handles by index. -/

/-- A producer-handle lifetime event: clone handle `i`, or drop handle
`i`. -/
inductive WriterOp where
| wclone : Nat → WriterOp
| wdrop : Nat → WriterOp

/-- The shared queue together with the live producer handles. -/
structure WriterSystem (T : Type) where
  queue : MultiQueue T
  handles : List (QueueState × Nat)

/-- The system right after `MultiQueue::new`: the queue and its one
initial writer handle. -/
def WriterSystem.init (T : Type) (junk : T) (cap : Nat) : WriterSystem T :=
  let w := (MultiQueue.new T junk cap).1
  { queue := w.queue, handles := [(w.state, w.token)] }

/-- One lifetime event: cloning replaces handle `i` by its post-clone self
and appends the new handle (`Clone for MultiWriter`); dropping removes
handle `i` (`Drop for MultiWriter`).  An out-of-range index is a no-op. -/
def WriterSystem.step (sys : WriterSystem T) : WriterOp → WriterSystem T
| WriterOp.wclone i =>
  match sys.handles.get? i with
  | none => sys
  | some (st, tok) =>
    let p := MultiWriter.clone { queue := sys.queue, state := st, token := tok }
    { queue := p.2.queue,
      handles := (sys.handles.set i (p.1.state, p.1.token)) ++ [(p.2.state, p.2.token)] }
| WriterOp.wdrop i =>
  match sys.handles.get? i with
  | none => sys
  | some (st, tok) =>
    { queue := MultiWriter.drop { queue := sys.queue, state := st, token := tok },
      handles := sys.handles.eraseIdx i }

/-- Run a list of lifetime events. -/
def WriterSystem.run (sys : WriterSystem T) : List WriterOp → WriterSystem T
| [] => sys
| op :: ops => (sys.step op).run ops

/-- Each lifetime event keeps `writers` equal to the live handle count. -/
theorem writer_step_preserves {T : Type} (sys : WriterSystem T)
    (op : WriterOp) (h : sys.queue.writers = sys.handles.length) :
    (sys.step op).queue.writers = (sys.step op).handles.length := by
  cases op with
  | wclone i =>
    cases hg : sys.handles.get? i with
    | none => simp only [WriterSystem.step, hg]; exact h
    | some p =>
      obtain ⟨st, tok⟩ := p
      simp only [WriterSystem.step, hg, MultiWriter.clone, List.length_append,
        List.length_set, List.length_cons, List.length_nil]
      omega
  | wdrop i =>
    cases hg : sys.handles.get? i with
    | none => simp only [WriterSystem.step, hg]; exact h
    | some p =>
      obtain ⟨st, tok⟩ := p
      have hi : i < sys.handles.length := by
        rcases Nat.lt_or_ge i sys.handles.length with h' | h'
        · exact h'
        · rw [List.get?_eq_none.mpr h'] at hg; cases hg
      have hlen := List.length_eraseIdx_add_one hi
      simp only [WriterSystem.step, hg, MultiWriter.drop]
      omega

/-- The invariant is inductive along any run. -/
theorem writer_run_preserves {T : Type} (sys : WriterSystem T)
    (ops : List WriterOp) (h : sys.queue.writers = sys.handles.length) :
    (sys.run ops).queue.writers = (sys.run ops).handles.length := by
  induction ops generalizing sys with
  | nil => exact h
  | cons op ops ih => exact ih (sys.step op) (writer_step_preserves sys op h)

/-- Claim C7: `writers` counts the live producer handles.  `new` starts it
at 1 for the initial writer; after any sequence of clones and drops it
still equals the number of live handles; a clone adds exactly 1 and
leaves both the original and the new handle in `Multi`; a drop subtracts
exactly 1. -/
theorem writers_counts_live_handles (T : Type) (junk : T) (cap : Nat)
    (ops : List WriterOp) :
    (MultiQueue.new T junk cap).1.queue.writers = 1 ∧
    ((WriterSystem.init T junk cap).run ops).queue.writers =
      ((WriterSystem.init T junk cap).run ops).handles.length ∧
    (∀ w : MultiWriter T,
      w.clone.1.queue.writers = w.queue.writers + 1 ∧
      w.clone.1.state = QueueState.Multi ∧
      w.clone.2.state = QueueState.Multi ∧
      w.clone.2.queue = w.clone.1.queue) ∧
    (∀ w : MultiWriter T, 0 < w.queue.writers →
      w.drop.writers + 1 = w.queue.writers) := by
  refine ⟨rfl, writer_run_preserves _ ops rfl, fun w => ⟨rfl, rfl, rfl, rfl⟩, ?_⟩
  intro w hw
  exact Nat.succ_pred_eq_of_pos hw

/-- Claim C7 witness: a clone followed by dropping the clone leaves one
live handle and `writers = 1`; the concrete drop subtracts one. -/
theorem writers_counts_live_handles_witness :
    ((WriterSystem.init Nat 99 1).run
        [WriterOp.wclone 0, WriterOp.wdrop 1]).queue.writers =
      ((WriterSystem.init Nat 99 1).run
        [WriterOp.wclone 0, WriterOp.wdrop 1]).handles.length ∧
    wSingleW.drop.writers + 1 = wSingleW.queue.writers := by
  have h := writers_counts_live_handles Nat 99 1 [WriterOp.wclone 0, WriterOp.wdrop 1]
  exact ⟨h.2.1, h.2.2.2 wSingleW (by decide)⟩

/-- Claim C9 counterexample: in a loaded signal with both the epoch and
the free bit set, the handle (writer and reader alike, starting from an
empty manager call log) performs `update_token` but never `start_free`:
the `else if` skips the free action, contradicting the claim that both
actions are performed. -/
theorem handle_signals_both_bits_counterexample :
    (LoadedSignal.mk true true).start_free = true ∧
    MgrAction.startFree ∉ (wSingleW.handle_signals (LoadedSignal.mk true true)).log ∧
    MgrAction.startFree ∉ (mrW.handle_signals (LoadedSignal.mk true true)).log := by
  decide

/-- Claim C9 amended: a handle invokes `update_token` on its token
whenever the epoch bit is set, and invokes `start_free` whenever the free
bit is set and the epoch bit is clear; when both bits are set only
`update_token` is performed. -/
theorem handle_signals_actions (T : Type) (w : MultiWriter T)
    (m : MultiReader T) (s : LoadedSignal) :
    (s.get_epoch = true →
      w.handle_signals s = w.queue.manager.update_token w.token ∧
      m.handle_signals s = m.queue.manager.update_token m.token) ∧
    (s.get_epoch = false → s.start_free = true →
      w.handle_signals s = w.queue.manager.start_free ∧
      m.handle_signals s = m.queue.manager.start_free) := by
  constructor
  · intro he
    unfold MultiWriter.handle_signals MultiReader.handle_signals
    rw [he]
    exact ⟨rfl, rfl⟩
  · intro he hf
    unfold MultiWriter.handle_signals MultiReader.handle_signals
    rw [he, hf]
    exact ⟨rfl, rfl⟩

/-- Claim C9 amended witness: an epoch-only signal updates the token, a
free-only signal starts the free. -/
theorem handle_signals_actions_witness :
    (wSingleW.handle_signals (LoadedSignal.mk true false) =
      wSingleW.queue.manager.update_token 0 ∧
     mrW.handle_signals (LoadedSignal.mk true false) =
      mrW.queue.manager.update_token 1) ∧
    (wSingleW.handle_signals (LoadedSignal.mk false true) =
      wSingleW.queue.manager.start_free ∧
     mrW.handle_signals (LoadedSignal.mk false true) =
      mrW.queue.manager.start_free) := by
  exact ⟨(handle_signals_actions Nat wSingleW mrW (LoadedSignal.mk true false)).1 rfl,
         (handle_signals_actions Nat wSingleW mrW (LoadedSignal.mk false true)).2 rfl rfl⟩

end Multiqueue
